import Mathlib

/-!
Verification of the model-resolution and streaming-completion core of the
obsidian-gemini plugin (Groq backend). The definitions below are shallow
embeddings of the TypeScript sources:

* `src/services/model-discovery.ts` — `ModelDiscoveryService` (catalog fetch,
  24h TTL cache, graceful degradation);
* `src/models.ts` — the `GEMINI_MODELS` registry, `getDefaultModelForRole`,
  `getUpdatedModelSettings`;
* `src/services/model-manager.ts` — `filterModelsForVersion`,
  `detectModelChanges`, `updateModels`;
* `src/api/gemini-client.ts` — the streaming SSE decode loop, tool-call
  fragment accumulation, `extractResponse` and the permissive `parseJson`.

Machine integers do not occur on the verified paths; timestamps are `Nat`
(the JS subtraction `now - lastUpdated < TTL` agrees with truncated `Nat`
subtraction because a negative difference and a `0` difference are both
below the TTL). The platform primitive `JSON.parse` is modelled by an
executable JSON parser (`Json.parse`); fallible code returns `Except`.
-/

/-! ## String helpers (JS `String.prototype.includes`) -/

/-- Boolean test that `pre` is a leading run of `l` (over character lists). -/
def charsLeads : List Char → List Char → Bool
  | [], _ => true
  | _ :: _, [] => false
  | a :: as, b :: bs => a = b && charsLeads as bs

/-- Boolean substring containment on character lists: JS `hay.includes(needle)`. -/
def charsContains : List Char → List Char → Bool
  | [], needle => charsLeads needle []
  | c :: t, needle => charsLeads needle (c :: t) || charsContains t needle

/-- JS `s.includes(sub)` on strings. -/
def strContains (s sub : String) : Bool :=
  charsContains s.data sub.data

/-- JS `s.toLowerCase()` (ASCII ids only occur here). Implemented over the
character list so that it is kernel-reducible. -/
def strToLower (s : String) : String :=
  String.mk (s.data.map Char.toLower)

/-- JS `s.startsWith(pre)`. -/
def strStartsWith (s pre : String) : Bool :=
  charsLeads pre.data s.data

/-- JS `s.slice(n)` for a nonnegative `n` (ASCII prefixes only occur here). -/
def strDrop (s : String) (n : Nat) : String :=
  String.mk (s.data.drop n)

/-- JS `s.trim()` on the whitespace that occurs in SSE framing. -/
def strTrim (s : String) : String :=
  String.mk (((s.data.dropWhile Char.isWhitespace).reverse.dropWhile Char.isWhitespace).reverse)

/-- Fueled worker for `strSplitOn`; the fuel strictly decreases so the
definition is structural and kernel-reducible. -/
def splitOnAuxF : Nat → List Char → List Char → List Char → List (List Char)
  | 0, rest, _, acc => [acc.reverse ++ rest]
  | Nat.succ fuel, cs, sep, acc =>
    match cs with
    | [] => [acc.reverse]
    | c :: t =>
      if charsLeads sep (c :: t) then
        acc.reverse :: splitOnAuxF fuel ((c :: t).drop sep.length) sep []
      else splitOnAuxF fuel t sep (c :: acc)

/-- JS `s.split(sep)` for a nonempty separator. -/
def strSplitOn (s sep : String) : List String :=
  (splitOnAuxF (s.data.length + 1) s.data sep.data []).map String.mk

/-! ## A JSON value model and an executable parser (the platform `JSON.parse`) -/

/-- JSON values as produced by `JSON.parse`. Numbers keep their source lexeme:
no claim depends on numeric semantics, only on parse success and structure. -/
inductive Json where
  | null : Json
  | bool (b : Bool) : Json
  | num (lexeme : String) : Json
  | str (s : String) : Json
  | arr (elems : List Json) : Json
  | obj (fields : List (String × Json)) : Json

/-- Whitespace accepted between JSON tokens. -/
def isJsonWs (c : Char) : Bool :=
  c = ' ' || c = '\t' || c = '\n' || c = Char.ofNat 13

/-- Drop leading JSON whitespace. -/
def skipWs : List Char → List Char
  | [] => []
  | c :: cs => if isJsonWs c then skipWs cs else c :: cs

/-- Value of one hexadecimal digit. -/
def hexVal (c : Char) : Option Nat :=
  if '0' ≤ c ∧ c ≤ '9' then some (c.toNat - '0'.toNat)
  else if 'a' ≤ c ∧ c ≤ 'f' then some (c.toNat - 'a'.toNat + 10)
  else if 'A' ≤ c ∧ c ≤ 'F' then some (c.toNat - 'A'.toNat + 10)
  else none

/-- Parse the body of a JSON string after the opening quote, handling the
standard escapes; returns the decoded string and the remaining input. -/
def parseStringBody : List Char → List Char → Option (String × List Char)
  | [], _ => none
  | '"' :: rest, acc => some (String.mk acc.reverse, rest)
  | '\\' :: esc, acc =>
    (match esc with
     | [] => none
     | e :: rest =>
       if e = '"' then parseStringBody rest ('"' :: acc)
       else if e = '\\' then parseStringBody rest ('\\' :: acc)
       else if e = '/' then parseStringBody rest ('/' :: acc)
       else if e = 'b' then parseStringBody rest (Char.ofNat 8 :: acc)
       else if e = 'f' then parseStringBody rest (Char.ofNat 12 :: acc)
       else if e = 'n' then parseStringBody rest ('\n' :: acc)
       else if e = 'r' then parseStringBody rest (Char.ofNat 13 :: acc)
       else if e = 't' then parseStringBody rest ('\t' :: acc)
       else if e = 'u' then
         match rest with
         | h1 :: h2 :: h3 :: h4 :: rest2 =>
           match hexVal h1, hexVal h2, hexVal h3, hexVal h4 with
           | some a, some b, some c, some d =>
             parseStringBody rest2 (Char.ofNat (((a * 16 + b) * 16 + c) * 16 + d) :: acc)
           | _, _, _, _ => none
         | _ => none
       else none)
  | c :: rest, acc =>
    if c.toNat < 32 then none else parseStringBody rest (c :: acc)

/-- Take a maximal run of decimal digits. -/
def takeDigits : List Char → List Char × List Char
  | [] => ([], [])
  | c :: cs =>
    if c.isDigit then
      let (d, r) := takeDigits cs
      (c :: d, r)
    else ([], c :: cs)

/-- Parse an optional JSON fraction part. -/
def parseFrac : List Char → Option (List Char × List Char)
  | '.' :: t =>
    (match takeDigits t with
     | ([], _) => none
     | (ds, r) => some ('.' :: ds, r))
  | cs => some ([], cs)

/-- Parse an optional JSON exponent part. -/
def parseExp : List Char → Option (List Char × List Char)
  | [] => some ([], [])
  | c :: t =>
    if c = 'e' ∨ c = 'E' then
      match t with
      | [] => none
      | s :: t2 =>
        if s = '+' ∨ s = '-' then
          match takeDigits t2 with
          | ([], _) => none
          | (ds, r) => some (c :: s :: ds, r)
        else
          match takeDigits t with
          | ([], _) => none
          | (ds, r) => some (c :: ds, r)
    else some ([], c :: t)

/-- Parse a JSON number, returning its lexeme. -/
def parseNumber (cs : List Char) : Option (String × List Char) :=
  let signAndRest : List Char × List Char :=
    match cs with
    | '-' :: t => (['-'], t)
    | _ => ([], cs)
  match signAndRest.2 with
  | [] => none
  | c :: t =>
    if c = '0' then
      match parseFrac t with
      | none => none
      | some (fr, r1) =>
        match parseExp r1 with
        | none => none
        | some (ex, r2) => some (String.mk (signAndRest.1 ++ [c] ++ fr ++ ex), r2)
    else if c.isDigit then
      let (ds, r0) := takeDigits t
      match parseFrac r0 with
      | none => none
      | some (fr, r1) =>
        match parseExp r1 with
        | none => none
        | some (ex, r2) => some (String.mk (signAndRest.1 ++ (c :: ds) ++ fr ++ ex), r2)
    else none

/-- Internal mode of the fueled JSON parser. -/
inductive JsonParseMode where
  | value
  | arrItems
  | objItems

/-- Fueled recursive-descent JSON parser; `fuel` strictly decreases so the
definition is structural and kernel-reducible. -/
def parseJsonCore : Nat → JsonParseMode → List Char → List Json →
    List (String × Json) → Option (Json × List Char)
  | 0, _, _, _, _ => none
  | Nat.succ fuel, JsonParseMode.value, cs, _, _ =>
    (match skipWs cs with
     | [] => none
     | c :: rest =>
       if c = '"' then
         match parseStringBody rest [] with
         | some (s, r) => some (Json.str s, r)
         | none => none
       else if c = '[' then
         match skipWs rest with
         | ']' :: r => some (Json.arr [], r)
         | _ => parseJsonCore fuel JsonParseMode.arrItems rest [] []
       else if c = Char.ofNat 123 then
         match skipWs rest with
         | [] => none
         | c2 :: r =>
           if c2 = Char.ofNat 125 then some (Json.obj [], r)
           else parseJsonCore fuel JsonParseMode.objItems rest [] []
       else if c = 't' then
         match rest with
         | 'r' :: 'u' :: 'e' :: r => some (Json.bool true, r)
         | _ => none
       else if c = 'f' then
         match rest with
         | 'a' :: 'l' :: 's' :: 'e' :: r => some (Json.bool false, r)
         | _ => none
       else if c = 'n' then
         match rest with
         | 'u' :: 'l' :: 'l' :: r => some (Json.null, r)
         | _ => none
       else
         match parseNumber (c :: rest) with
         | some (lx, r) => some (Json.num lx, r)
         | none => none)
  | Nat.succ fuel, JsonParseMode.arrItems, cs, jacc, _ =>
    (match parseJsonCore fuel JsonParseMode.value cs [] [] with
     | none => none
     | some (v, r) =>
       match skipWs r with
       | ',' :: r2 => parseJsonCore fuel JsonParseMode.arrItems r2 (v :: jacc) []
       | ']' :: r2 => some (Json.arr (v :: jacc).reverse, r2)
       | _ => none)
  | Nat.succ fuel, JsonParseMode.objItems, cs, _, oacc =>
    (match skipWs cs with
     | '"' :: r =>
       match parseStringBody r [] with
       | none => none
       | some (k, r1) =>
         match skipWs r1 with
         | ':' :: r2 =>
           (match parseJsonCore fuel JsonParseMode.value r2 [] [] with
            | none => none
            | some (v, r3) =>
              match skipWs r3 with
              | [] => none
              | ',' :: r4 => parseJsonCore fuel JsonParseMode.objItems r4 [] ((k, v) :: oacc)
              | c4 :: r4 =>
                if c4 = Char.ofNat 125 then some (Json.obj ((k, v) :: oacc).reverse, r4)
                else none)
         | _ => none
     | _ => none)

/-- Model of the platform `JSON.parse`: `some` on a complete well-formed JSON
document, `none` where `JSON.parse` would throw. -/
def Json.parse (s : String) : Option Json :=
  match parseJsonCore (2 * s.length + 8) JsonParseMode.value s.data [] [] with
  | some (j, rest) => if skipWs rest = [] then some j else none
  | none => none

/-- First field of a JSON object with the given key (JS property access). -/
def jsonLookupField : List (String × Json) → String → Option Json
  | [], _ => none
  | (k, v) :: rest, key => if k = key then some v else jsonLookupField rest key

/-- JS optional-chaining property access `j?.key`. -/
def Json.getField : Json → String → Option Json
  | Json.obj fields, key => jsonLookupField fields key
  | _, _ => none

/-- JS `a?.[0]` on a JSON array. -/
def jsonHead : Json → Option Json
  | Json.arr (x :: _) => some x
  | _ => none

/-- Boolean test for being a JSON object. -/
def Json.isObj : Json → Bool
  | Json.obj _ => true
  | _ => false

/-! ## Model discovery (`src/services/model-discovery.ts`) -/

/-- Catalog entry shape from `GET /models` (`data: [{id, owned_by, ...}]`).
A missing `id` is modelled as `""` (the source coerces with `String(model.id || '')`). -/
structure RawCatalogModel where
  id : String
  owned_by : String := ""
deriving DecidableEq, Repr

/-- `GoogleModel` of `model-discovery.ts`. -/
structure GoogleModel where
  name : String
  displayName : String
  description : String
  version : String
  inputTokenLimit : Nat
  outputTokenLimit : Nat
  supportedGenerationMethods : List String
  baseModelId : Option String := none
  maxTemperature : Option Nat := none
  topP : Option Nat := none
  topK : Option Nat := none
deriving DecidableEq, Repr

/-- `ModelDiscoveryResult` of `model-discovery.ts`. -/
structure ModelDiscoveryResult where
  models : List GoogleModel
  lastUpdated : Nat
  success : Bool
  error : Option String := none
deriving DecidableEq, Repr

/-- `CACHE_DURATION`: 24 hours in milliseconds. -/
def CACHE_DURATION : Nat := 24 * 60 * 60 * 1000

/-- Environment of one catalog fetch: which way `fetchModelsFromAPI` would
resolve. `noApiKey` is the missing-credential throw, `networkError` a `fetch`
rejection, `httpError` a non-2xx response, `ok` a 2xx JSON body. -/
inductive FetchEnv where
  | noApiKey
  | networkError (message : String)
  | httpError (status : Nat) (statusText : String)
  | ok (data : List RawCatalogModel)
deriving DecidableEq, Repr

/-- `isGenerativeModel`: drops speech/transcription families by id substring. -/
def isGenerativeModel (m : RawCatalogModel) : Bool :=
  let id := strToLower m.id
  !(id = "") && !(strContains id "whisper") && !(strContains id "tts") &&
    !(strContains id "vision-preview")

/-- Mapping of one surviving catalog entry into a `GoogleModel` with the
provider-specific defaults filled in. -/
def rawToGoogleModel (m : RawCatalogModel) : GoogleModel :=
  { name := m.id
    displayName := m.id
    description := if m.owned_by = "" then "Groq model" else m.owned_by
    version := "latest"
    inputTokenLimit := 131072
    outputTokenLimit := 8192
    supportedGenerationMethods := ["generateContent"]
    maxTemperature := some 2
    topP := some 1 }

/-- `fetchModelsFromAPI`: throws (`Except.error`) on missing key, transport
failure or non-2xx status; otherwise filters and maps the catalog. -/
def fetchModelsFromAPI (env : FetchEnv) : Except String (List GoogleModel) :=
  match env with
  | FetchEnv.noApiKey => Except.error "API key not configured"
  | FetchEnv.networkError msg => Except.error msg
  | FetchEnv.httpError status statusText =>
    Except.error ("API request failed: " ++ toString status ++ " " ++ statusText)
  | FetchEnv.ok data => Except.ok ((data.filter isGenerativeModel).map rawToGoogleModel)

/-- `isCacheValid`: a cache exists and `now - lastUpdated < CACHE_DURATION`. -/
def isCacheValidAt (cache : Option ModelDiscoveryResult) (now : Nat) : Bool :=
  match cache with
  | some c => now - c.lastUpdated < CACHE_DURATION
  | none => false

/-- Observable outcome of one `discoverModels` call: the returned result, the
in-memory cache afterwards, and whether control reached `fetchModelsFromAPI`
(no network traffic happens when this is `false`). -/
structure DiscoverOutcome where
  result : ModelDiscoveryResult
  newCache : Option ModelDiscoveryResult
  fetchAttempted : Bool
deriving DecidableEq, Repr

/-- The `try`-block of `discoverModels`: fetch, cache on success; on failure
build a failed result and return the stale cache if present. -/
def discoverFetch (cache : Option ModelDiscoveryResult) (env : FetchEnv) (now : Nat) :
    DiscoverOutcome :=
  match fetchModelsFromAPI env with
  | Except.ok models =>
    let result : ModelDiscoveryResult := { models := models, lastUpdated := now, success := true }
    { result := result, newCache := some result, fetchAttempted := true }
  | Except.error e =>
    let failed : ModelDiscoveryResult :=
      { models := [], lastUpdated := now, success := false, error := some e }
    { result := cache.getD failed, newCache := cache, fetchAttempted := true }

/-- `discoverModels(forceRefresh)`: serve a valid cache unless forced,
otherwise fetch. Total — the source never lets the failure escape. -/
def discoverModels (cache : Option ModelDiscoveryResult) (env : FetchEnv) (now : Nat)
    (forceRefresh : Bool) : DiscoverOutcome :=
  if !forceRefresh && cache.isSome && isCacheValidAt cache now then
    { result := cache.getD { models := [], lastUpdated := 0, success := false }
      newCache := cache
      fetchAttempted := false }
  else
    discoverFetch cache env now

/-! ## Model registry and roles (`src/models.ts`) -/

/-- `ModelRole` union type. -/
inductive ModelRole where
  | chat
  | summary
  | completions
  | rewrite
  | image
deriving DecidableEq, Repr

/-- `GeminiModel` interface; the optional TS fields get their JS-falsy defaults. -/
structure GeminiModel where
  value : String
  label : String
  defaultForRoles : List ModelRole := []
  supportsImageGeneration : Bool := false
deriving DecidableEq, Repr

/-- `DEFAULT_GEMINI_MODELS` static baseline. -/
def DEFAULT_GEMINI_MODELS : List GeminiModel :=
  [ { value := "compound", label := "Compound", defaultForRoles := [ModelRole.chat, ModelRole.rewrite] }
  , { value := "compound-mini", label := "Compound Mini", defaultForRoles := [ModelRole.summary] }
  , { value := "llama-3.3-70b-versatile", label := "Llama 3.3 70B Versatile", defaultForRoles := [ModelRole.completions] }
  , { value := "openai/gpt-oss-120b", label := "GPT OSS 120B" }
  , { value := "moonshotai/kimi-k2-instruct-0905", label := "Kimi K2 Instruct 0905" }
  , { value := "deepseek-r1-distill-llama-70b", label := "DeepSeek R1 Distill Llama 70B" }
  , { value := "llama-3.1-8b-instant", label := "Llama 3.1 8B Instant" } ]

/-- Does a model claim `role` among its `defaultForRoles`? -/
def claimsRole (m : GeminiModel) (role : ModelRole) : Bool :=
  m.defaultForRoles.contains role

/-- `getDefaultModelForRole`, over an explicit registry (the process-wide
`GEMINI_MODELS`). `Except.error` models the thrown empty-registry error. -/
def getDefaultModelForRole (registry : List GeminiModel) (role : ModelRole) :
    Except String String :=
  match registry.find? (fun m => claimsRole m role) with
  | some modelForRole => Except.ok modelForRole.value
  | none =>
    match registry with
    | m :: _ => Except.ok m.value
    | [] => Except.error "CRITICAL: GEMINI_MODELS array is empty. Please configure available models."

/-! ## Model filtering (`ModelManager.filterModelsForVersion`) -/

/-- The image-capability classification of `filterModelsForVersion`. -/
def isImageModel (m : GeminiModel) : Bool :=
  let modelValue := strToLower m.value
  m.supportsImageGeneration || strContains modelValue "image" ||
    strContains modelValue "vision" || strContains modelValue "flux"

/-- The fixed denylist test on a lowercased id. -/
def deniedId (modelValue : String) : Bool :=
  strContains modelValue "embedding" || strContains modelValue "whisper" ||
    strContains modelValue "tts" || strContains modelValue "transcribe" ||
    strContains modelValue "moderation" || strContains modelValue "guard" ||
    strContains modelValue "speech"

/-- The filter predicate of `filterModelsForVersion`. -/
def keepModel (imageModelsOnly : Bool) (m : GeminiModel) : Bool :=
  let modelValue := strToLower m.value
  if deniedId modelValue then false
  else if imageModelsOnly then isImageModel m
  else !(isImageModel m)

/-- `filterModelsForVersion(models, imageModelsOnly)`. -/
def filterModelsForVersion (models : List GeminiModel) (imageModelsOnly : Bool) :
    List GeminiModel :=
  models.filter (keepModel imageModelsOnly)

/-! ## Settings update (`getUpdatedModelSettings`, `updateModels`) -/

/-- The model-name settings touched by `getUpdatedModelSettings`; TS
`undefined` is modelled by `""` (both are JS-falsy for `needsUpdate`). -/
structure PluginSettings where
  chatModelName : String := ""
  summaryModelName : String := ""
  completionsModelName : String := ""
  imageModelName : String := ""
deriving DecidableEq, Repr

/-- `ModelUpdateResult` of `src/models.ts`. -/
structure ModelUpdateResult where
  updatedSettings : PluginSettings
  settingsChanged : Bool
  changedSettingsInfo : List String
deriving DecidableEq, Repr

/-- `needsUpdate`: the setting is falsy or names an id not in the registry. -/
def needsUpdate (available : List String) (modelName : String) : Bool :=
  modelName = "" || !(available.contains modelName)

/-- `getUpdatedModelSettings(currentSettings)` against an explicit registry.
`Except.error` propagates the empty-registry throw of `getDefaultModelForRole`. -/
def getUpdatedModelSettings (registry : List GeminiModel) (currentSettings : PluginSettings) :
    Except String ModelUpdateResult := do
  let availableModelValues := registry.map (fun m => m.value)
  let (s1, ch1, info1) ←
    if needsUpdate availableModelValues currentSettings.chatModelName then do
      let next ← getDefaultModelForRole registry ModelRole.chat
      pure ( { currentSettings with chatModelName := next }, true,
        ["Chat model: " ++ currentSettings.chatModelName ++ " -> " ++ next ++ " (model update)"] )
    else
      pure (currentSettings, false, ([] : List String))
  let (s2, ch2, info2) ←
    if needsUpdate availableModelValues s1.summaryModelName then do
      let next ← getDefaultModelForRole registry ModelRole.summary
      pure ( { s1 with summaryModelName := next }, true,
        ["Summary model: " ++ s1.summaryModelName ++ " -> " ++ next ++ " (model update)"] )
    else
      pure (s1, false, ([] : List String))
  let (s3, ch3, info3) ←
    if needsUpdate availableModelValues s2.completionsModelName then do
      let next ← getDefaultModelForRole registry ModelRole.completions
      pure ( { s2 with completionsModelName := next }, true,
        ["Completions model: " ++ s2.completionsModelName ++ " -> " ++ next ++ " (model update)"] )
    else
      pure (s2, false, ([] : List String))
  let (s4, ch4, info4) ←
    if !(s3.imageModelName = "") && needsUpdate availableModelValues s3.imageModelName then
      pure ( { s3 with imageModelName := "" }, true,
        ["Image model " ++ s3.imageModelName ++ " is not available on Groq and was cleared."] )
    else
      pure (s3, false, ([] : List String))
  pure { updatedSettings := s4
         settingsChanged := ch1 || ch2 || ch3 || ch4
         changedSettingsInfo := info1 ++ info2 ++ info3 ++ info4 }

/-- `areSetsEqual` over the JS `Set`s, modelled on deduplicated id lists. -/
def areSetsEqual (set1 set2 : List String) : Bool :=
  set1.length == set2.length && set1.all (fun item => set2.contains item)

/-- Deduplicated id list of a registry (the JS `new Set(models.map(m => m.value))`). -/
def registryIdSet (models : List GeminiModel) : List String :=
  (models.map (fun m => m.value)).dedup

/-- `detectModelChanges(current, previous)`. -/
def detectModelChanges (current previous : List GeminiModel) : Bool :=
  if current.length != previous.length then true
  else !(areSetsEqual (registryIdSet current) (registryIdSet previous))

/-- `ModelManager.updateModels` with the freshly computed available list
(`getAvailableModels` result) and the currently registered `GEMINI_MODELS`
passed explicitly; returns the update result and the registry afterwards. -/
def updateModels (currentModels previousModels : List GeminiModel)
    (settings : PluginSettings) : Except String (ModelUpdateResult × List GeminiModel) :=
  if detectModelChanges currentModels previousModels then
    match getUpdatedModelSettings currentModels settings with
    | Except.ok r => Except.ok (r, currentModels)
    | Except.error e => Except.error e
  else
    Except.ok ( { updatedSettings := settings, settingsChanged := false, changedSettingsInfo := [] }
              , previousModels )

/-! ## Streaming completion client (`src/api/gemini-client.ts`) -/

/-- A decoded tool call as returned to callers (`ToolCall` of the model API).
`name` stays optional because `extractResponse` copies `tc.function?.name`
without a presence check. -/
structure ToolCall where
  name : Option String
  arguments : Json

/-- One partially assembled tool call in the stream buffer
(`{id?, name?, arguments: string}`). -/
structure ToolCallFragment where
  id : Option String := none
  name : Option String := none
  arguments : String := ""
deriving DecidableEq, Repr

/-- One `delta.tool_calls` entry as it appears on the wire. -/
structure ToolCallDelta where
  index : Option Nat := none
  id : Option String := none
  name : Option String := none
  arguments : Option String := none
deriving DecidableEq, Repr

/-- JS truthiness of an optional string (`undefined` and `""` are falsy). -/
def optTruthy : Option String → Bool
  | some s => !(s = "")
  | none => false

/-- `GeminiClient.parseJson`: `{}` for a falsy value, the parsed JSON when
`JSON.parse` succeeds, and the `{raw: value}` fallback when it throws. -/
def parseJson (value : Option String) : Json :=
  match value with
  | none => Json.obj []
  | some v =>
    if v = "" then Json.obj []
    else
      match Json.parse v with
      | some j => j
      | none => Json.obj [("raw", Json.str v)]

/-- Lookup in the `Map<number, fragment>` tool-call buffer. -/
def fragLookup : List (Nat × ToolCallFragment) → Nat → Option ToolCallFragment
  | [], _ => none
  | (k, f) :: rest, i => if k = i then some f else fragLookup rest i

/-- `Map.set`: replace in place when the key exists (keeping its position),
append otherwise. -/
def fragSet : List (Nat × ToolCallFragment) → Nat → ToolCallFragment →
    List (Nat × ToolCallFragment)
  | [], i, f => [(i, f)]
  | (k, g) :: rest, i, f =>
    if k = i then (i, f) :: rest else (k, g) :: fragSet rest i f

/-- Update of one buffered fragment by one delta: truthy `id` and `name`
overwrite, a truthy `arguments` fragment is concatenated. -/
def updateFragment (existing : ToolCallFragment) (tc : ToolCallDelta) : ToolCallFragment :=
  let e1 := if optTruthy tc.id then { existing with id := tc.id } else existing
  let e2 := if optTruthy tc.name then { e1 with name := tc.name } else e1
  match tc.arguments with
  | some s => if !(s = "") then { e2 with arguments := e2.arguments ++ s } else e2
  | none => e2

/-- The per-delta accumulation step of the streaming loop (`index = tc.index
?? 0`, fetch-or-create the fragment, update it, store it back). -/
def applyToolCallDelta (buffer : List (Nat × ToolCallFragment)) (tc : ToolCallDelta) :
    List (Nat × ToolCallFragment) :=
  let index := tc.index.getD 0
  fragSet buffer index (updateFragment ((fragLookup buffer index).getD {}) tc)

/-- End-of-stream finalization: keep fragments with a truthy `name`, decode
their accumulated `arguments` with the permissive `parseJson`. -/
def finalizeToolCalls (buffer : List (Nat × ToolCallFragment)) : List ToolCall :=
  ((buffer.map Prod.snd).filter (fun tc => optTruthy tc.name)).map
    (fun tc => { name := tc.name, arguments := parseJson (some tc.arguments) })

/-- Per-call stream state: SSE byte/event buffer, accumulated markdown, the
log of texts passed to the chunk callback, and the tool-call buffer. -/
structure StreamState where
  buffer : String := ""
  markdown : String := ""
  emitted : List String := []
  toolCallBuffer : List (Nat × ToolCallFragment) := []
deriving DecidableEq, Repr

/-- Decode a nonnegative integer JSON number lexeme (stream indices). -/
def decodeNatLexeme (lx : String) : Option Nat :=
  if !(lx = "") && lx.data.all Char.isDigit then
    some (lx.data.foldl (fun acc c => acc * 10 + (c.toNat - '0'.toNat)) 0)
  else none

/-- Read one wire `delta.tool_calls` entry into a `ToolCallDelta`. -/
def jsonToToolCallDelta (j : Json) : ToolCallDelta :=
  { index :=
      match j.getField "index" with
      | some (Json.num lx) => decodeNatLexeme lx
      | _ => none
    id :=
      match j.getField "id" with
      | some (Json.str s) => some s
      | _ => none
    name :=
      match (j.getField "function").bind (fun f => f.getField "name") with
      | some (Json.str s) => some s
      | _ => none
    arguments :=
      match (j.getField "function").bind (fun f => f.getField "arguments") with
      | some (Json.str s) => some s
      | _ => none }

/-- Apply one parsed stream payload: append and emit `delta.content` when
truthy, then fold the `delta.tool_calls` entries into the buffer. -/
def applyChunk (st : StreamState) (chunk : Json) : StreamState :=
  let delta := ((chunk.getField "choices").bind jsonHead).bind (fun c => c.getField "delta")
  let text :=
    match delta.bind (fun d => d.getField "content") with
    | some (Json.str s) => s
    | _ => ""
  let st1 :=
    if !(text = "") then
      { st with markdown := st.markdown ++ text, emitted := st.emitted ++ [text] }
    else st
  let toolCallJsons :=
    match delta.bind (fun d => d.getField "tool_calls") with
    | some (Json.arr xs) => xs
    | _ => []
  { st1 with
    toolCallBuffer := (toolCallJsons.map jsonToToolCallDelta).foldl applyToolCallDelta st1.toolCallBuffer }

/-- Handle one non-sentinel `data:` payload; a malformed payload models the
uncaught `JSON.parse` throw of the read loop. -/
def processDataLine (st : StreamState) (data : String) : Except String StreamState :=
  match Json.parse data with
  | none => Except.error ("Unexpected token in JSON: " ++ data)
  | some chunk => Except.ok (applyChunk st chunk)

/-- Handle one line of an SSE event: only `data: ` lines count; empty and
`[DONE]` payloads are no-op sentinels. -/
def processLine (st : StreamState) (line : String) : Except String StreamState :=
  if !(strStartsWith line "data: ") then Except.ok st
  else
    let data := strTrim (strDrop line 6)
    if data = "" || data = "[DONE]" then Except.ok st
    else processDataLine st data

/-- Handle one complete `\n\n`-delimited event. -/
def processEvent (st : StreamState) (event : String) : Except String StreamState :=
  (strSplitOn event "\n").foldlM processLine st

/-- Handle one decoded read: split the running buffer on `\n\n`, keep the
trailing partial event, process the complete ones. -/
def processRead (st : StreamState) (decodedText : String) : Except String StreamState :=
  let combined := st.buffer ++ decodedText
  let events := strSplitOn combined "\n\n"
  let newBuffer := (events.getLast?).getD ""
  (events.dropLast).foldlM processEvent { st with buffer := newBuffer }

/-- The streaming read loop over a sequence of decoded reads. -/
def runStream (reads : List String) : Except String StreamState :=
  reads.foldlM processRead {}

/-- `ModelResponse` of the model API (the `rendered` field is always `''`). -/
structure ModelResponse where
  markdown : String
  rendered : String
  toolCalls : Option (List ToolCall) := none

/-- The result the streaming promise resolves to: accumulated markdown, plus
tool calls when the buffer is nonempty (even if all fragments are nameless). -/
def buildStreamResult (st : StreamState) : ModelResponse :=
  { markdown := st.markdown
    rendered := ""
    toolCalls :=
      if st.toolCallBuffer.length > 0 then some (finalizeToolCalls st.toolCallBuffer) else none }

/-- A streaming call whose cooperative cancel flag was set while awaiting read
number `readsProcessed` (0-based counting of completed reads): the loop exits
after that read resolves, so exactly the first `readsProcessed` reads are
drained, and whatever was accumulated is returned. -/
def cancelledStreamingCall (reads : List String) (readsProcessed : Nat) :
    Except String ModelResponse :=
  (runStream (reads.take readsProcessed)).map buildStreamResult

/-- One `tool_calls` entry of a non-streaming response. -/
def extractToolCallEntry (tc : Json) : ToolCall :=
  { name :=
      match (tc.getField "function").bind (fun f => f.getField "name") with
      | some (Json.str s) => some s
      | _ => none
    arguments :=
      parseJson
        (match (tc.getField "function").bind (fun f => f.getField "arguments") with
         | some (Json.str s) => some s
         | _ => none) }

/-- `GeminiClient.extractResponse` on a parsed non-streaming response body. -/
def extractResponse (response : Json) : ModelResponse :=
  let choice := ((response.getField "choices").bind jsonHead).bind (fun c => c.getField "message")
  let markdown :=
    match choice.bind (fun c => c.getField "content") with
    | some (Json.str s) => s
    | _ => ""
  let toolCallJsons :=
    match choice.bind (fun c => c.getField "tool_calls") with
    | some (Json.arr xs) => xs
    | _ => []
  { markdown := markdown
    rendered := ""
    toolCalls :=
      if toolCallJsons.length > 0 then some (toolCallJsons.map extractToolCallEntry) else none }

/-! ## Claim C1 — cache TTL behavior of `discoverModels` -/

/-- C1: with a valid in-memory cache (`now - lastUpdated < 24h`),
`discoverModels(false)` returns the cache unchanged without reaching the
fetch; `discoverModels(true)` always proceeds to the catalog fetch; hence a
first `discoverModels(false)` whose fetch succeeds followed by a second one
within the TTL window performs exactly one fetch between them. -/
theorem discoverModels_cache_ttl :
    (∀ (c : ModelDiscoveryResult) (env : FetchEnv) (now : Nat),
      now - c.lastUpdated < CACHE_DURATION →
      discoverModels (some c) env now false =
        { result := c, newCache := some c, fetchAttempted := false })
    ∧ (∀ (cache : Option ModelDiscoveryResult) (env : FetchEnv) (now : Nat),
      (discoverModels cache env now true).fetchAttempted = true)
    ∧ (∀ (env1 env2 : FetchEnv) (now1 now2 : Nat) (ms : List GoogleModel),
      fetchModelsFromAPI env1 = Except.ok ms →
      now2 - now1 < CACHE_DURATION →
      (discoverModels none env1 now1 false).fetchAttempted = true
      ∧ (discoverModels (discoverModels none env1 now1 false).newCache env2 now2 false).fetchAttempted
          = false
      ∧ (discoverModels (discoverModels none env1 now1 false).newCache env2 now2 false).result
          = (discoverModels none env1 now1 false).result) := by
  refine ⟨?_, ?_, ?_⟩
  · intro c env now h
    simp [discoverModels, isCacheValidAt, h]
  · intro cache env now
    cases henv : fetchModelsFromAPI env <;>
      simp [discoverModels, discoverFetch, henv]
  · intro env1 env2 now1 now2 ms hfetch ht
    have h1 : discoverModels none env1 now1 false =
        { result := { models := ms, lastUpdated := now1, success := true }
          newCache := some { models := ms, lastUpdated := now1, success := true }
          fetchAttempted := true } := by
      simp [discoverModels, isCacheValidAt, discoverFetch, hfetch]
    rw [h1]
    refine ⟨rfl, ?_, ?_⟩ <;> simp [discoverModels, isCacheValidAt, ht]

/-- Witness for C1 at a concrete cache, a concrete successful fetch
environment and concrete clock values inside the TTL window. -/
theorem discoverModels_cache_ttl_witness :
    (discoverModels
        (some { models := [], lastUpdated := 100, success := true })
        (FetchEnv.httpError 500 "boom") 200 false =
      { result := { models := [], lastUpdated := 100, success := true }
        newCache := some { models := [], lastUpdated := 100, success := true }
        fetchAttempted := false })
    ∧ (discoverModels none (FetchEnv.ok []) 0 false).fetchAttempted = true
    ∧ (discoverModels (discoverModels none (FetchEnv.ok []) 0 false).newCache
          (FetchEnv.ok []) 1 false).fetchAttempted = false := by
  refine ⟨discoverModels_cache_ttl.1 _ _ _ (by decide), ?_, ?_⟩
  · exact (discoverModels_cache_ttl.2.2 (FetchEnv.ok []) (FetchEnv.ok []) 0 1 [] rfl
      (by decide)).1
  · exact (discoverModels_cache_ttl.2.2 (FetchEnv.ok []) (FetchEnv.ok []) 0 1 [] rfl
      (by decide)).2.1

/-! ## Claim C2 — `discoverModels` contains every fetch failure -/

/-- C2: `discoverModels` is total (no exception escapes); when the catalog
fetch fails — missing API key, transport failure or non-2xx status, all the
`Except.error` cases of `fetchModelsFromAPI` — it returns the previously
cached result when one exists and otherwise a failed empty result carrying
the error string, and the in-memory cache is left untouched. -/
theorem discoverModels_error_containment
    (cache : Option ModelDiscoveryResult) (env : FetchEnv) (now : Nat) (forceRefresh : Bool)
    (e : String) (hfail : fetchModelsFromAPI env = Except.error e) :
    (discoverModels cache env now forceRefresh).newCache = cache
    ∧ (discoverModels cache env now forceRefresh).result =
        (match cache with
         | some c => c
         | none => { models := [], lastUpdated := now, success := false, error := some e }) := by
  cases cache with
  | none => simp [discoverModels, isCacheValidAt, discoverFetch, hfail]
  | some c =>
    simp only [discoverModels, discoverFetch, hfail]
    refine ⟨?_, ?_⟩ <;> split <;> simp

/-- Witness for C2: a non-2xx failure with a stale cache present, applied at
concrete values. -/
theorem discoverModels_error_containment_witness :
    (discoverModels (some { models := [], lastUpdated := 0, success := true })
        (FetchEnv.httpError 503 "unavailable") (2 * CACHE_DURATION) false).newCache
      = some { models := [], lastUpdated := 0, success := true }
    ∧ (discoverModels (some { models := [], lastUpdated := 0, success := true })
        (FetchEnv.httpError 503 "unavailable") (2 * CACHE_DURATION) false).result
      = { models := [], lastUpdated := 0, success := true } := by
  exact discoverModels_error_containment
    (some { models := [], lastUpdated := 0, success := true })
    (FetchEnv.httpError 503 "unavailable") (2 * CACHE_DURATION) false
    ("API request failed: " ++ toString 503 ++ " " ++ "unavailable") rfl

/-! ## Claims C3, C4 — the denylist and image/text partition of
`filterModelsForVersion` -/

/-- Characterization of the filter predicate: a model is kept in mode `b`
exactly when its lowercased id passes the denylist and its image
classification matches the mode. -/
theorem keepModel_iff (b : Bool) (m : GeminiModel) :
    keepModel b m = true ↔
      (deniedId (strToLower m.value) = false ∧ isImageModel m = b) := by
  cases hden : deniedId (strToLower m.value) <;> cases him : isImageModel m <;> cases b <;>
    simp [keepModel, hden, him]

/-- Membership in a filtered output in terms of the predicate. -/
theorem mem_filterModelsForVersion (models : List GeminiModel) (b : Bool) (m : GeminiModel) :
    m ∈ filterModelsForVersion models b ↔ (m ∈ models ∧ keepModel b m = true) := by
  simp [filterModelsForVersion, List.mem_filter]

/-- C3 counterexample: the claim denylists the substring `transcription`, but
the code checks `transcribe`, which is not a substring of `transcription`
(it diverges at `b`/`p`); a model id containing `transcription` therefore
survives text-mode filtering. -/
theorem filterModels_transcription_counterexample :
    strContains (strToLower "transcription-v1") "transcription" = true
    ∧ filterModelsForVersion [{ value := "transcription-v1", label := "T" }] false
        = [{ value := "transcription-v1", label := "T" }] := by
  constructor
  · decide
  · decide

/-- C3 amended: for every model whose lowercased identifier contains one of
the denylist substrings the code actually checks — embedding, whisper, tts,
transcribe, moderation, guard, speech — `filterModelsForVersion` excludes the
model in both modes, regardless of its image-capability flag. -/
theorem filterModels_denylist_amended (models : List GeminiModel) (m : GeminiModel)
    (sub : String)
    (hsub : sub ∈ ["embedding", "whisper", "tts", "transcribe", "moderation", "guard", "speech"])
    (hcontains : strContains (strToLower m.value) sub = true) :
    m ∉ filterModelsForVersion models true ∧ m ∉ filterModelsForVersion models false := by
  have hden : deniedId (strToLower m.value) = true := by
    simp only [List.mem_cons, List.not_mem_nil, or_false] at hsub
    rcases hsub with rfl | rfl | rfl | rfl | rfl | rfl | rfl <;>
      simp [deniedId, hcontains]
  constructor <;> intro hmem <;>
    rcases (mem_filterModelsForVersion _ _ _).1 hmem with ⟨-, hk⟩ <;>
    rcases (keepModel_iff _ _).1 hk with ⟨hd, -⟩ <;>
    simp [hden] at hd

/-- Witness for the amended C3 at a concrete guard model. -/
theorem filterModels_denylist_amended_witness :
    ({ value := "llama-guard-3-8b", label := "G" } : GeminiModel) ∉
        filterModelsForVersion [{ value := "llama-guard-3-8b", label := "G" }] true
    ∧ ({ value := "llama-guard-3-8b", label := "G" } : GeminiModel) ∉
        filterModelsForVersion [{ value := "llama-guard-3-8b", label := "G" }] false :=
  filterModels_denylist_amended _ _ "guard" (by decide) (by decide)

/-- C4: the image-mode and text-mode outputs of `filterModelsForVersion` are
disjoint; their union is exactly the input minus the denylist-excluded
models; every surviving image-classified model (capability flag set, or an
image/vision/flux substring in the id) lands only in the image output, every
other survivor only in the text output. -/
theorem filterModels_partition (models : List GeminiModel) :
    (∀ m, m ∈ filterModelsForVersion models true → m ∉ filterModelsForVersion models false)
    ∧ (∀ m, (m ∈ filterModelsForVersion models true ∨ m ∈ filterModelsForVersion models false)
        ↔ (m ∈ models ∧ deniedId (strToLower m.value) = false))
    ∧ (∀ m, m ∈ models → deniedId (strToLower m.value) = false → isImageModel m = true →
        m ∈ filterModelsForVersion models true ∧ m ∉ filterModelsForVersion models false)
    ∧ (∀ m, m ∈ models → deniedId (strToLower m.value) = false → isImageModel m = false →
        m ∈ filterModelsForVersion models false ∧ m ∉ filterModelsForVersion models true) := by
  refine ⟨?_, ?_, ?_, ?_⟩
  · intro m h1 h2
    rcases (keepModel_iff _ _).1 ((mem_filterModelsForVersion _ _ _).1 h1).2 with ⟨-, hi1⟩
    rcases (keepModel_iff _ _).1 ((mem_filterModelsForVersion _ _ _).1 h2).2 with ⟨-, hi2⟩
    rw [hi1] at hi2
    cases hi2
  · intro m
    rw [mem_filterModelsForVersion, mem_filterModelsForVersion, keepModel_iff, keepModel_iff]
    constructor
    · rintro (⟨hm, hd, -⟩ | ⟨hm, hd, -⟩) <;> exact ⟨hm, hd⟩
    · rintro ⟨hm, hd⟩
      cases him : isImageModel m
      · exact Or.inr ⟨hm, hd, rfl⟩
      · exact Or.inl ⟨hm, hd, rfl⟩
  · intro m hm hd hi
    constructor
    · exact (mem_filterModelsForVersion _ _ _).2 ⟨hm, (keepModel_iff _ _).2 ⟨hd, hi⟩⟩
    · intro hmem
      rcases (keepModel_iff _ _).1 ((mem_filterModelsForVersion _ _ _).1 hmem).2 with ⟨-, hfalse⟩
      rw [hi] at hfalse
      cases hfalse
  · intro m hm hd hi
    constructor
    · exact (mem_filterModelsForVersion _ _ _).2 ⟨hm, (keepModel_iff _ _).2 ⟨hd, hi⟩⟩
    · intro hmem
      rcases (keepModel_iff _ _).1 ((mem_filterModelsForVersion _ _ _).1 hmem).2 with ⟨-, hfalse⟩
      rw [hi] at hfalse
      cases hfalse

/-- Witness for C4 on a concrete two-model list with one image model. -/
theorem filterModels_partition_witness :
    ({ value := "flux-schnell", label := "F" } : GeminiModel) ∈
        filterModelsForVersion
          [{ value := "flux-schnell", label := "F" }, { value := "compound", label := "C" }] true
    ∧ ({ value := "flux-schnell", label := "F" } : GeminiModel) ∉
        filterModelsForVersion
          [{ value := "flux-schnell", label := "F" }, { value := "compound", label := "C" }] false :=
  (filterModels_partition
      [{ value := "flux-schnell", label := "F" }, { value := "compound", label := "C" }]).2.2.1
    { value := "flux-schnell", label := "F" } (by decide) (by decide) (by decide)

/-! ## Claim C5 — `getDefaultModelForRole` resolution order -/

/-- The registry `find?` locates the first model claiming the role. -/
theorem find_claimsRole_append (role : ModelRole) :
    ∀ (pre : List GeminiModel) (m : GeminiModel) (post : List GeminiModel),
      (∀ x ∈ pre, claimsRole x role = false) → claimsRole m role = true →
      (pre ++ m :: post).find? (fun x => claimsRole x role) = some m := by
  intro pre
  induction pre with
  | nil =>
    intro m post _ hm
    simpa [List.find?] using by rw [hm]
  | cons a t ih =>
    intro m post hpre hm
    have ha : claimsRole a role = false := hpre a (List.mem_cons_self a t)
    rw [List.cons_append, List.find?_cons_of_neg _ (by simp [ha])]
    exact ih m post (fun x hx => hpre x (List.mem_cons_of_mem a hx)) hm

/-- C5: `getDefaultModelForRole` returns the first registry model whose
`defaultForRoles` contains the role; when no model claims the role it falls
back to the first registry model; and it raises the empty-registry error
exactly when the registry is empty. -/
theorem getDefaultModelForRole_resolution :
    (∀ (pre : List GeminiModel) (m : GeminiModel) (post : List GeminiModel) (role : ModelRole),
      (∀ x ∈ pre, claimsRole x role = false) → claimsRole m role = true →
      getDefaultModelForRole (pre ++ m :: post) role = Except.ok m.value)
    ∧ (∀ (m : GeminiModel) (rest : List GeminiModel) (role : ModelRole),
      (∀ x ∈ m :: rest, claimsRole x role = false) →
      getDefaultModelForRole (m :: rest) role = Except.ok m.value)
    ∧ (∀ (registry : List GeminiModel) (role : ModelRole),
      (∃ e, getDefaultModelForRole registry role = Except.error e) ↔ registry = []) := by
  refine ⟨?_, ?_, ?_⟩
  · intro pre m post role hpre hm
    rw [getDefaultModelForRole.eq_def, find_claimsRole_append role pre m post hpre hm]
  · intro m rest role hnone
    have hfind : (m :: rest).find? (fun x => claimsRole x role) = none := by
      rw [List.find?_eq_none]
      intro x hx
      simp [hnone x hx]
    rw [getDefaultModelForRole.eq_def, hfind]
  · intro registry role
    constructor
    · rintro ⟨e, he⟩
      cases registry with
      | nil => rfl
      | cons a t =>
        rw [getDefaultModelForRole.eq_def] at he
        cases hfind : (a :: t).find? (fun x => claimsRole x role) with
        | some x => rw [hfind] at he; cases he
        | none => rw [hfind] at he; cases he
    · rintro rfl
      exact ⟨_, rfl⟩

/-- Witness for C5: in a registry where only the second model claims
`summary`, resolution returns the second model. -/
theorem getDefaultModelForRole_resolution_witness :
    getDefaultModelForRole
        ([{ value := "a", label := "A", defaultForRoles := [ModelRole.chat] }] ++
          { value := "b", label := "B", defaultForRoles := [ModelRole.summary] } ::
            ([] : List GeminiModel))
        ModelRole.summary = Except.ok "b" :=
  getDefaultModelForRole_resolution.1 _ _ _ _ (by decide) (by decide)

/-! ## Claim C6 — `updateModels` change detection and settings reassignment -/

/-- The JS `Set`-based `areSetsEqual` on deduplicated id lists decides
extensional equality of the underlying membership predicates. -/
theorem areSetsEqual_dedup_iff (l1 l2 : List String) :
    areSetsEqual l1.dedup l2.dedup = true ↔ (∀ v, v ∈ l1 ↔ v ∈ l2) := by
  rw [areSetsEqual, Bool.and_eq_true, beq_iff_eq, List.all_eq_true]
  constructor
  · rintro ⟨hlen, hall⟩
    have hsub : l1.toFinset ⊆ l2.toFinset := by
      intro v hv
      rw [List.mem_toFinset] at hv ⊢
      have hmem := hall v (List.mem_dedup.mpr hv)
      rw [List.contains, List.elem_iff, List.mem_dedup] at hmem
      exact hmem
    have hcard : l2.toFinset.card ≤ l1.toFinset.card := by
      rw [List.card_toFinset, List.card_toFinset, hlen]
    have heq := Finset.eq_of_subset_of_card_le hsub hcard
    intro v
    rw [← List.mem_toFinset, ← List.mem_toFinset, heq]
  · intro h
    have heq : l1.toFinset = l2.toFinset := by
      ext v
      rw [List.mem_toFinset, List.mem_toFinset]
      exact h v
    refine ⟨?_, ?_⟩
    · have hcard := congrArg Finset.card heq
      rwa [List.card_toFinset, List.card_toFinset] at hcard
    · intro v hv
      rw [List.contains, List.elem_iff, List.mem_dedup]
      exact (h v).mp (List.mem_dedup.mp hv)

/-- A nonempty registry always resolves a role default. -/
theorem getDefaultModelForRole_isOk (c : GeminiModel) (t : List GeminiModel) (role : ModelRole) :
    ∃ v, getDefaultModelForRole (c :: t) role = Except.ok v := by
  cases hf : (c :: t).find? (fun m => claimsRole m role) with
  | some m => exact ⟨m.value, by simp [getDefaultModelForRole, hf]⟩
  | none => exact ⟨c.value, by simp [getDefaultModelForRole, hf]⟩

/-- Field-by-field behavior of `getUpdatedModelSettings`: chat, summary and
completions settings that are empty or reference an absent id are reassigned
to the role default, a truthy stale image setting is cleared to `""`, settings
referencing a present id are untouched, and `settingsChanged` is set exactly
when one of the four conditions fired. -/
theorem getUpdatedModelSettings_spec (registry : List GeminiModel) (s : PluginSettings)
    (r : ModelUpdateResult) (h : getUpdatedModelSettings registry s = Except.ok r) :
    (needsUpdate (registry.map (fun m => m.value)) s.chatModelName = false →
      r.updatedSettings.chatModelName = s.chatModelName)
    ∧ (needsUpdate (registry.map (fun m => m.value)) s.chatModelName = true →
      getDefaultModelForRole registry ModelRole.chat = Except.ok r.updatedSettings.chatModelName)
    ∧ (needsUpdate (registry.map (fun m => m.value)) s.summaryModelName = false →
      r.updatedSettings.summaryModelName = s.summaryModelName)
    ∧ (needsUpdate (registry.map (fun m => m.value)) s.summaryModelName = true →
      getDefaultModelForRole registry ModelRole.summary = Except.ok r.updatedSettings.summaryModelName)
    ∧ (needsUpdate (registry.map (fun m => m.value)) s.completionsModelName = false →
      r.updatedSettings.completionsModelName = s.completionsModelName)
    ∧ (needsUpdate (registry.map (fun m => m.value)) s.completionsModelName = true →
      getDefaultModelForRole registry ModelRole.completions
        = Except.ok r.updatedSettings.completionsModelName)
    ∧ ((!(s.imageModelName = "") && needsUpdate (registry.map (fun m => m.value)) s.imageModelName) = true →
      r.updatedSettings.imageModelName = "")
    ∧ ((!(s.imageModelName = "") && needsUpdate (registry.map (fun m => m.value)) s.imageModelName) = false →
      r.updatedSettings.imageModelName = s.imageModelName)
    ∧ r.settingsChanged =
        (needsUpdate (registry.map (fun m => m.value)) s.chatModelName
          || needsUpdate (registry.map (fun m => m.value)) s.summaryModelName
          || needsUpdate (registry.map (fun m => m.value)) s.completionsModelName
          || (!(s.imageModelName = "") && needsUpdate (registry.map (fun m => m.value)) s.imageModelName)) := by
  cases registry with
  | nil =>
    exfalso
    simp [getUpdatedModelSettings, needsUpdate, getDefaultModelForRole, bind, Except.bind, pure, Except.pure] at h
  | cons c t =>
    obtain ⟨vc, hvc⟩ := getDefaultModelForRole_isOk c t ModelRole.chat
    obtain ⟨vs, hvs⟩ := getDefaultModelForRole_isOk c t ModelRole.summary
    obtain ⟨vp, hvp⟩ := getDefaultModelForRole_isOk c t ModelRole.completions
    cases h1 : needsUpdate ((c :: t).map (fun m => m.value)) s.chatModelName <;>
    cases h2 : needsUpdate ((c :: t).map (fun m => m.value)) s.summaryModelName <;>
    cases h3 : needsUpdate ((c :: t).map (fun m => m.value)) s.completionsModelName <;>
    cases h4 : (!(s.imageModelName = "")
        && needsUpdate ((c :: t).map (fun m => m.value)) s.imageModelName) <;>
      simp only [getUpdatedModelSettings, h1, h2, h3, h4, hvc, hvs, hvp, bind, Except.bind,
        pure, Except.pure, if_true, if_false, Bool.false_eq_true, Bool.true_eq_false, ite_true,
        ite_false, Except.ok.injEq] at h <;>
      subst h <;>
      simp [h1, h2, h3, h4, hvc, hvs, hvp]

/-- C6 counterexample: after a registry change, a stale `imageModelName` is
cleared to `""` by the code, not reassigned to the image role default `"i"`
as the claim states for every model-name setting. -/
theorem updateModels_image_clearing_counterexample :
    updateModels
        [ { value := "a", label := "A",
            defaultForRoles := [ModelRole.chat, ModelRole.summary, ModelRole.completions] }
        , { value := "i", label := "I", defaultForRoles := [ModelRole.image] } ]
        []
        { chatModelName := "a", summaryModelName := "a", completionsModelName := "a",
          imageModelName := "gone" }
      = Except.ok
          ( { updatedSettings :=
                { chatModelName := "a", summaryModelName := "a", completionsModelName := "a",
                  imageModelName := "" }
              settingsChanged := true
              changedSettingsInfo := ["Image model gone is not available on Groq and was cleared."] }
          , [ { value := "a", label := "A",
                defaultForRoles := [ModelRole.chat, ModelRole.summary, ModelRole.completions] }
            , { value := "i", label := "I", defaultForRoles := [ModelRole.image] } ] )
    ∧ getDefaultModelForRole
        [ { value := "a", label := "A",
            defaultForRoles := [ModelRole.chat, ModelRole.summary, ModelRole.completions] }
        , { value := "i", label := "I", defaultForRoles := [ModelRole.image] } ]
        ModelRole.image = Except.ok "i"
    ∧ ("" : String) ≠ "i" := by
  exact ⟨rfl, rfl, by decide⟩

/-- C6 amended: `updateModels` detects a change exactly when the fresh and
registered lists differ in length or in their id sets; on no change it
returns the input settings untouched with `settingsChanged = false`; on a
change it installs the fresh list as the registry and reassigns empty or
stale chat/summary/completions settings to the role defaults while leaving
still-present ids untouched — except `imageModelName`, which is cleared to
`""` when stale; the claim example evaluates as stated. -/
theorem updateModels_amended (cur prev : List GeminiModel) (s : PluginSettings) :
    (detectModelChanges cur prev = false ↔
      (cur.length = prev.length ∧
        (∀ v, v ∈ cur.map (fun m => m.value) ↔ v ∈ prev.map (fun m => m.value))))
    ∧ (detectModelChanges cur prev = false →
      updateModels cur prev s =
        Except.ok ( { updatedSettings := s, settingsChanged := false, changedSettingsInfo := [] }
                  , prev ))
    ∧ (∀ r reg, updateModels cur prev s = Except.ok (r, reg) →
      detectModelChanges cur prev = true →
      reg = cur
      ∧ (needsUpdate (cur.map (fun m => m.value)) s.chatModelName = false →
          r.updatedSettings.chatModelName = s.chatModelName)
      ∧ (needsUpdate (cur.map (fun m => m.value)) s.chatModelName = true →
          getDefaultModelForRole cur ModelRole.chat = Except.ok r.updatedSettings.chatModelName)
      ∧ (needsUpdate (cur.map (fun m => m.value)) s.summaryModelName = false →
          r.updatedSettings.summaryModelName = s.summaryModelName)
      ∧ (needsUpdate (cur.map (fun m => m.value)) s.summaryModelName = true →
          getDefaultModelForRole cur ModelRole.summary
            = Except.ok r.updatedSettings.summaryModelName)
      ∧ (needsUpdate (cur.map (fun m => m.value)) s.completionsModelName = false →
          r.updatedSettings.completionsModelName = s.completionsModelName)
      ∧ (needsUpdate (cur.map (fun m => m.value)) s.completionsModelName = true →
          getDefaultModelForRole cur ModelRole.completions
            = Except.ok r.updatedSettings.completionsModelName)
      ∧ ((!(s.imageModelName = "") && needsUpdate (cur.map (fun m => m.value)) s.imageModelName) = true →
          r.updatedSettings.imageModelName = "")
      ∧ ((!(s.imageModelName = "") && needsUpdate (cur.map (fun m => m.value)) s.imageModelName) = false →
          r.updatedSettings.imageModelName = s.imageModelName))
    ∧ (updateModels
        [ { value := "a", label := "a", defaultForRoles := [ModelRole.chat] }
        , { value := "b", label := "b", defaultForRoles := [ModelRole.summary] } ]
        []
        { chatModelName := "x", summaryModelName := "b" }
      = Except.ok
          ( { updatedSettings :=
                { chatModelName := "a", summaryModelName := "b", completionsModelName := "a",
                  imageModelName := "" }
              settingsChanged := true
              changedSettingsInfo :=
                ["Chat model: x -> a (model update)", "Completions model:  -> a (model update)"] }
          , [ { value := "a", label := "a", defaultForRoles := [ModelRole.chat] }
            , { value := "b", label := "b", defaultForRoles := [ModelRole.summary] } ] )) := by
  have hdet : detectModelChanges cur prev = false ↔
      (cur.length = prev.length ∧
        (∀ v, v ∈ cur.map (fun m => m.value) ↔ v ∈ prev.map (fun m => m.value))) := by
    unfold detectModelChanges
    by_cases hlen : cur.length = prev.length
    · rw [if_neg (by simp [hlen])]
      rw [show (∀ b : Bool, ((!b) = false ↔ b = true)) from by decide]
      rw [registryIdSet, registryIdSet, areSetsEqual_dedup_iff]
      simp [hlen]
    · rw [if_pos (by simp [hlen])]
      simp [hlen]
  refine ⟨hdet, ?_, ?_, ?_⟩
  · intro h
    rw [updateModels, h]
    simp
  · intro r reg hok hch
    rw [updateModels, hch] at hok
    simp only [if_true, ite_true] at hok
    cases hupd : getUpdatedModelSettings cur s with
    | error e => rw [hupd] at hok; cases hok
    | ok r2 =>
      rw [hupd] at hok
      simp only [Except.ok.injEq, Prod.mk.injEq] at hok
      obtain ⟨hr, hreg⟩ := hok
      subst hr
      subst hreg
      have hspec := getUpdatedModelSettings_spec cur s r2 hupd
      exact ⟨rfl, hspec.1, hspec.2.1, hspec.2.2.1, hspec.2.2.2.1, hspec.2.2.2.2.1,
        hspec.2.2.2.2.2.1, hspec.2.2.2.2.2.2.1, hspec.2.2.2.2.2.2.2.1⟩
  · rfl

/-- Witness for the amended C6 in the no-change case: same singleton
registry on both sides leaves the settings untouched. -/
theorem updateModels_amended_witness :
    updateModels [{ value := "g", label := "G" }] [{ value := "g", label := "G" }]
        { chatModelName := "g", summaryModelName := "g", completionsModelName := "g" }
      = Except.ok
          ( { updatedSettings :=
                { chatModelName := "g", summaryModelName := "g", completionsModelName := "g" }
              settingsChanged := false
              changedSettingsInfo := [] }
          , [{ value := "g", label := "G" }] ) :=
  (updateModels_amended [{ value := "g", label := "G" }] [{ value := "g", label := "G" }]
      { chatModelName := "g", summaryModelName := "g", completionsModelName := "g" }).2.1
    (by decide)

/-! ## Claim C7 — streaming tool-call fragment accumulation -/

/-- Concatenation of a list of strings in order. -/
def concatAll : List String → String
  | [] => ""
  | s :: ss => s ++ concatAll ss

/-- The first delta at an index builds its fragment from the defaults. -/
theorem applyToolCallDelta_initial (idv n a : String) :
    applyToolCallDelta [] { index := some 0, id := some idv, name := some n, arguments := some a }
      = [(0, { id := if idv = "" then none else some idv
             , name := if n = "" then none else some n
             , arguments := a })] := by
  by_cases hid : idv = "" <;> by_cases hn : n = "" <;> by_cases ha : a = "" <;>
    simp [applyToolCallDelta, updateFragment, fragLookup, fragSet, optTruthy, hid, hn, ha,
      String.empty_append]

/-- Argument-only deltas at a singleton index concatenate their fragments in
arrival order. -/
theorem applyToolCallDelta_fragments (i : Nat) :
    ∀ (fs : List String) (e : ToolCallFragment),
      (fs.map (fun f => ({ index := some i, arguments := some f } : ToolCallDelta))).foldl
          applyToolCallDelta [(i, e)]
        = [(i, { e with arguments := e.arguments ++ concatAll fs })] := by
  intro fs
  induction fs with
  | nil =>
    intro e
    rcases e with ⟨eid, en, ea⟩
    simp [concatAll, String.append_empty]
  | cons f rest ih =>
    intro e
    rcases e with ⟨eid, en, ea⟩
    have hstep :
        applyToolCallDelta [(i, (⟨eid, en, ea⟩ : ToolCallFragment))]
            { index := some i, arguments := some f }
          = [(i, (⟨eid, en, ea ++ f⟩ : ToolCallFragment))] := by
      by_cases hf : f = "" <;>
        simp [applyToolCallDelta, updateFragment, fragLookup, fragSet, optTruthy, hf,
          String.append_empty]
    simp only [List.map_cons, List.foldl_cons, hstep, ih]
    simp [concatAll, String.append_assoc]

/-- Entries of `fragSet` come from the old buffer or are the new entry. -/
theorem mem_fragSet :
    ∀ (buf : List (Nat × ToolCallFragment)) (i : Nat) (f : ToolCallFragment)
      (p : Nat × ToolCallFragment), p ∈ fragSet buf i f → p ∈ buf ∨ p = (i, f) := by
  intro buf
  induction buf with
  | nil =>
    intro i f p hp
    simp only [fragSet] at hp
    rcases List.mem_cons.mp hp with rfl | h
    · exact Or.inr rfl
    · cases h
  | cons kg rest ih =>
    intro i f p hp
    rcases kg with ⟨k, g⟩
    by_cases hk : k = i
    · simp only [fragSet, if_pos hk] at hp
      rcases List.mem_cons.mp hp with rfl | h
      · exact Or.inr rfl
      · exact Or.inl (List.mem_cons_of_mem _ h)
    · simp only [fragSet, if_neg hk] at hp
      rcases List.mem_cons.mp hp with rfl | h
      · exact Or.inl (List.mem_cons_self _ _)
      · rcases ih i f p h with h2 | h2
        · exact Or.inl (List.mem_cons_of_mem _ h2)
        · exact Or.inr h2

/-- `fragLookup` only returns entries of the buffer. -/
theorem fragLookup_mem :
    ∀ (buf : List (Nat × ToolCallFragment)) (i : Nat) (f : ToolCallFragment),
      fragLookup buf i = some f → (i, f) ∈ buf := by
  intro buf
  induction buf with
  | nil => intro i f h; cases h
  | cons kg rest ih =>
    intro i f h
    rcases kg with ⟨k, g⟩
    by_cases hk : k = i
    · simp only [fragLookup, if_pos hk, Option.some.injEq] at h
      subst hk
      subst h
      exact List.mem_cons_self _ _
    · simp only [fragLookup, if_neg hk] at h
      exact List.mem_cons_of_mem _ (ih i f h)

/-- A delta whose name is untruthy never names a fragment. -/
theorem updateFragment_name_untruthy (e : ToolCallFragment) (d : ToolCallDelta)
    (hd : optTruthy d.name = false) : (updateFragment e d).name = e.name := by
  rcases hda : d.arguments with _ | s
  · by_cases hid : optTruthy d.id = true <;>
      simp [updateFragment, hd, hda, hid]
  · by_cases hid : optTruthy d.id = true <;> by_cases hs : s = "" <;>
      simp [updateFragment, hd, hda, hid, hs]

/-- Folding nameless deltas preserves a nameless buffer. -/
theorem foldl_applyToolCallDelta_nameless :
    ∀ (ds : List ToolCallDelta) (buf : List (Nat × ToolCallFragment)),
      (∀ d ∈ ds, optTruthy d.name = false) →
      (∀ p ∈ buf, optTruthy p.2.name = false) →
      ∀ p ∈ ds.foldl applyToolCallDelta buf, optTruthy p.2.name = false := by
  intro ds
  induction ds with
  | nil => intro buf _ hbuf p hp; exact hbuf p hp
  | cons d rest ih =>
    intro buf hds hbuf
    rw [List.foldl_cons]
    refine ih (applyToolCallDelta buf d) (fun d2 h2 => hds d2 (List.mem_cons_of_mem _ h2)) ?_
    intro p hp
    simp only [applyToolCallDelta] at hp
    rcases mem_fragSet _ _ _ p hp with h | rfl
    · exact hbuf p h
    · show optTruthy (updateFragment ((fragLookup buf (d.index.getD 0)).getD {}) d).name = false
      rw [updateFragment_name_untruthy _ _ (hds d (List.mem_cons_self _ _))]
      cases hlk : fragLookup buf (d.index.getD 0) with
      | none => simp [optTruthy]
      | some f => simpa using hbuf _ (fragLookup_mem _ _ _ hlk)

/-- Finalization drops every nameless fragment. -/
theorem finalizeToolCalls_nameless (buf : List (Nat × ToolCallFragment))
    (h : ∀ p ∈ buf, optTruthy p.2.name = false) :
    finalizeToolCalls buf = [] := by
  rw [finalizeToolCalls]
  have hfil : (buf.map Prod.snd).filter (fun tc => optTruthy tc.name) = [] := by
    rw [List.filter_eq_nil_iff]
    intro a ha
    rcases List.mem_map.mp ha with ⟨p, hp, rfl⟩
    simp [h p hp]
  rw [hfil]
  rfl

/-- The tool-call buffer accumulated from a delta sequence, starting from the
empty `Map` a streaming call begins with. -/
def processToolCallDeltas (ds : List ToolCallDelta) : List (Nat × ToolCallFragment) :=
  ds.foldl applyToolCallDelta []

/-- C7: tool-call deltas keyed by a stream index accumulate across
arbitrarily many events — truthy `id`/`name` overwrite, `arguments`
fragments concatenate in arrival order — and are finalized only at stream
end: a payload split into a first named delta plus any number of
argument-only fragments finalizes to exactly the tool call obtained from the
payload sent whole, with arguments decoded from the full concatenation; a
delta sequence that never supplies a truthy name finalizes to no tool call. -/
theorem toolCall_fragment_accumulation :
    (∀ (idv n f0 : String) (fs : List String), n ≠ "" →
      finalizeToolCalls
          (processToolCallDeltas
            (({ index := some 0, id := some idv, name := some n, arguments := some f0 } : ToolCallDelta)
              :: fs.map (fun f => ({ index := some 0, arguments := some f } : ToolCallDelta))))
        = [{ name := some n, arguments := parseJson (some (f0 ++ concatAll fs)) }]
      ∧ finalizeToolCalls
          (processToolCallDeltas
            (({ index := some 0, id := some idv, name := some n, arguments := some f0 } : ToolCallDelta)
              :: fs.map (fun f => ({ index := some 0, arguments := some f } : ToolCallDelta))))
        = finalizeToolCalls
            (processToolCallDeltas
              [({ index := some 0, id := some idv, name := some n,
                  arguments := some (f0 ++ concatAll fs) } : ToolCallDelta)]))
    ∧ (∀ ds : List ToolCallDelta, (∀ d ∈ ds, optTruthy d.name = false) →
      finalizeToolCalls (processToolCallDeltas ds) = []) := by
  constructor
  · intro idv n f0 fs hn
    have hsplit :
        processToolCallDeltas
            (({ index := some 0, id := some idv, name := some n, arguments := some f0 } : ToolCallDelta)
              :: fs.map (fun f => ({ index := some 0, arguments := some f } : ToolCallDelta)))
          = [(0, { id := if idv = "" then none else some idv
                 , name := if n = "" then none else some n
                 , arguments := f0 ++ concatAll fs })] := by
      rw [processToolCallDeltas, List.foldl_cons, applyToolCallDelta_initial,
        applyToolCallDelta_fragments]
    have hwhole :
        processToolCallDeltas
            [({ index := some 0, id := some idv, name := some n,
                arguments := some (f0 ++ concatAll fs) } : ToolCallDelta)]
          = [(0, { id := if idv = "" then none else some idv
                 , name := if n = "" then none else some n
                 , arguments := f0 ++ concatAll fs })] := by
      rw [processToolCallDeltas, List.foldl_cons, applyToolCallDelta_initial]
      rfl
    refine ⟨?_, ?_⟩
    · rw [hsplit]
      simp [finalizeToolCalls, optTruthy, hn]
    · rw [hsplit, hwhole]
  · intro ds hds
    exact finalizeToolCalls_nameless _
      (foldl_applyToolCallDelta_nameless ds [] hds (by intro p hp; cases hp))

/-- Witness for C7: the arguments payload of one tool call split across three
chunks at index 0 finalizes to the same decoded object as the whole payload. -/
theorem toolCall_fragment_accumulation_witness :
    finalizeToolCalls
        (processToolCallDeltas
          (({ index := some 0, id := some "call_1", name := some "get_weather",
              arguments := some "\x7b\"loc" } : ToolCallDelta)
            :: ["ation\": \"Bos", "ton\"\x7d"].map
                (fun f => ({ index := some 0, arguments := some f } : ToolCallDelta))))
      = [{ name := some "get_weather",
           arguments := parseJson (some ("\x7b\"loc" ++ concatAll ["ation\": \"Bos", "ton\"\x7d"])) }]
    ∧ parseJson (some ("\x7b\"loc" ++ concatAll ["ation\": \"Bos", "ton\"\x7d"]))
        = Json.obj [("location", Json.str "Boston")] := by
  exact ⟨(toolCall_fragment_accumulation.1 "call_1" "get_weather" "\x7b\"loc"
      ["ation\": \"Bos", "ton\"\x7d"] (by decide)).1, rfl⟩

/-! ## Claims C8, C10 — permissive tool-argument decoding -/

/-- A minimal non-streaming response body carrying one tool call with the
given name and arguments string. -/
def mkToolCallResponse (n args : String) : Json :=
  Json.obj [("choices", Json.arr [Json.obj [("message", Json.obj
    [("content", Json.str ""),
     ("tool_calls", Json.arr [Json.obj [("function", Json.obj
        [("name", Json.str n), ("arguments", Json.str args)])]])])]])]

/-- A minimal non-streaming response body carrying one tool call with no
arguments field at all. -/
def mkToolCallResponseNoArgs (n : String) : Json :=
  Json.obj [("choices", Json.arr [Json.obj [("message", Json.obj
    [("content", Json.str ""),
     ("tool_calls", Json.arr [Json.obj [("function", Json.obj
        [("name", Json.str n)])]])])]])]

/-- C8: the shared decoder parses valid JSON arguments and falls back to
`{raw: <original>}` on any parse failure instead of throwing, in the
non-streaming path (`extractResponse`) and in the streaming finalization
alike; the decoder is total, so malformed arguments never fail the call. -/
theorem parseJson_fallback_both_paths (s : String) :
    (∀ j, Json.parse s = some j → parseJson (some s) = j)
    ∧ (s ≠ "" → Json.parse s = none →
        parseJson (some s) = Json.obj [("raw", Json.str s)])
    ∧ (∀ n, s ≠ "" → Json.parse s = none →
        extractResponse (mkToolCallResponse n s)
          = { markdown := "", rendered := "",
              toolCalls := some [{ name := some n, arguments := Json.obj [("raw", Json.str s)] }] })
    ∧ (∀ (n : String) (idOpt : Option String), n ≠ "" → Json.parse s = none → s ≠ "" →
        finalizeToolCalls [(0, { id := idOpt, name := some n, arguments := s })]
          = [{ name := some n, arguments := Json.obj [("raw", Json.str s)] }]) := by
  refine ⟨?_, ?_, ?_, ?_⟩
  · intro j hj
    by_cases hs : s = ""
    · subst hs
      rw [show Json.parse "" = none from rfl] at hj
      cases hj
    · simp [parseJson, hs, hj]
  · intro hs hn
    simp [parseJson, hs, hn]
  · intro n hs hn
    simp [extractResponse, mkToolCallResponse, Json.getField, jsonLookupField, jsonHead,
      extractToolCallEntry, parseJson, hs, hn]
  · intro n idOpt hn hnone hs
    simp [finalizeToolCalls, optTruthy, hn, parseJson, hs, hnone]

/-- Witness for C8 at the malformed arguments string `not json`. -/
theorem parseJson_fallback_both_paths_witness :
    parseJson (some "not json") = Json.obj [("raw", Json.str "not json")]
    ∧ extractResponse (mkToolCallResponse "f" "not json")
        = { markdown := "", rendered := "",
            toolCalls :=
              some [{ name := some "f", arguments := Json.obj [("raw", Json.str "not json")] }] } := by
  exact ⟨(parseJson_fallback_both_paths "not json").2.1 (by decide) rfl,
    (parseJson_fallback_both_paths "not json").2.2.1 "f" (by decide) rfl⟩

/-- C10 counterexample: the arguments string `null` is valid JSON decoding to
JSON `null`, so the decoder returns a value that is neither `{}` nor an
object — the claim that a returned tool call's arguments field is always a
non-null object fails. -/
theorem parseJson_null_arguments_counterexample :
    parseJson (some "null") = Json.null
    ∧ (parseJson (some "null")).isObj = false
    ∧ extractResponse (mkToolCallResponse "f" "null")
        = { markdown := "", rendered := "",
            toolCalls := some [{ name := some "f", arguments := Json.null }] } := by
  exact ⟨rfl, rfl, rfl⟩

/-- C10 amended: for an absent or empty arguments string the shared decoder
returns the empty object `{}` — not `{raw: ""}` and not an error — in both
the non-streaming and the streaming path; for non-empty arguments it returns
whatever JSON value parses (possibly `null` or another non-object), or the
raw fallback on parse failure. -/
theorem parseJson_empty_arguments_amended :
    parseJson none = Json.obj []
    ∧ parseJson (some "") = Json.obj []
    ∧ extractResponse (mkToolCallResponseNoArgs "f")
        = { markdown := "", rendered := "",
            toolCalls := some [{ name := some "f", arguments := Json.obj [] }] }
    ∧ finalizeToolCalls [(0, { id := none, name := some "f", arguments := "" })]
        = [{ name := some "f", arguments := Json.obj [] }] := by
  exact ⟨rfl, rfl, rfl, rfl⟩

/-! ## Claim C9 — cancellation yields the partial result -/

/-- Concatenation distributes over list append. -/
theorem concatAll_append (l1 l2 : List String) :
    concatAll (l1 ++ l2) = concatAll l1 ++ concatAll l2 := by
  induction l1 with
  | nil => simp [concatAll, String.empty_append]
  | cons s t ih => simp [concatAll, ih, String.append_assoc]

/-- The emission invariant of the read loop: accumulated markdown is exactly
the concatenation, in order, of the texts handed to the chunk callback. -/
def EmitInv (st : StreamState) : Prop :=
  st.markdown = concatAll st.emitted

/-- Invariant preservation through an `Except`-valued left fold. -/
theorem foldlM_except_ok_pres {α β : Type} (f : β → α → Except String β) (P : β → Prop)
    (hf : ∀ b a b2, P b → f b a = Except.ok b2 → P b2) :
    ∀ (l : List α) (b b2 : β), P b → l.foldlM f b = Except.ok b2 → P b2 := by
  intro l
  induction l with
  | nil =>
    intro b b2 hb hfold
    simp only [List.foldlM_nil, pure, Except.pure] at hfold
    cases hfold
    exact hb
  | cons a t ih =>
    intro b b2 hb hfold
    rw [List.foldlM_cons] at hfold
    cases hfa : f b a with
    | error e =>
      rw [hfa] at hfold
      simp only [bind, Except.bind] at hfold
      cases hfold
    | ok b1 =>
      rw [hfa] at hfold
      simp only [bind, Except.bind] at hfold
      exact ih b1 b2 (hf b a b1 hb hfa) hfold

/-- One parsed payload preserves the emission invariant. -/
theorem applyChunk_emitInv (st : StreamState) (chunk : Json) (h : EmitInv st) :
    EmitInv (applyChunk st chunk) := by
  unfold EmitInv at h ⊢
  simp only [applyChunk]
  split
  · simp [concatAll_append, concatAll, h, String.append_empty]
  · simpa using h

/-- One `data:` payload preserves the emission invariant. -/
theorem processDataLine_emitInv (st st2 : StreamState) (data : String) (h : EmitInv st)
    (hp : processDataLine st data = Except.ok st2) : EmitInv st2 := by
  unfold processDataLine at hp
  cases hj : Json.parse data with
  | none => rw [hj] at hp; cases hp
  | some chunk =>
    rw [hj] at hp
    cases hp
    exact applyChunk_emitInv st chunk h

/-- One event line preserves the emission invariant. -/
theorem processLine_emitInv (st st2 : StreamState) (line : String) (h : EmitInv st)
    (hp : processLine st line = Except.ok st2) : EmitInv st2 := by
  simp only [processLine] at hp
  split at hp
  · cases hp
    exact h
  · split at hp
    · cases hp
      exact h
    · exact processDataLine_emitInv _ _ _ h hp

/-- One complete SSE event preserves the emission invariant. -/
theorem processEvent_emitInv (st st2 : StreamState) (event : String) (h : EmitInv st)
    (hp : processEvent st event = Except.ok st2) : EmitInv st2 := by
  unfold processEvent at hp
  exact foldlM_except_ok_pres processLine EmitInv
    (fun b a b2 hb hf => processLine_emitInv b b2 a hb hf) _ _ _ h hp

/-- One decoded read preserves the emission invariant. -/
theorem processRead_emitInv (st st2 : StreamState) (txt : String) (h : EmitInv st)
    (hp : processRead st txt = Except.ok st2) : EmitInv st2 := by
  simp only [processRead] at hp
  exact foldlM_except_ok_pres processEvent EmitInv
    (fun b a b2 hb hf => processEvent_emitInv b b2 a hb hf)
    ((strSplitOn (st.buffer ++ txt) "\n\n").dropLast)
    { st with buffer := ((strSplitOn (st.buffer ++ txt) "\n\n").getLast?).getD "" }
    st2 h hp

/-- Any successful run of the read loop satisfies the emission invariant. -/
theorem runStream_emitInv (reads : List String) (st : StreamState)
    (h : runStream reads = Except.ok st) : EmitInv st := by
  unfold runStream at h
  exact foldlM_except_ok_pres processRead EmitInv
    (fun b a b2 hb hf => processRead_emitInv b b2 a hb hf) reads {} st rfl h

/-- C9: when the cancel flag is observed after `k` reads have resolved, the
loop drains exactly those reads; whenever that prefix processes without
error, the cancelled call completes normally (no exception) with a result
whose markdown is exactly the concatenation, in emission order, of the chunk
texts handed to the callback, plus the tool calls finalized from the
fragments accumulated so far. -/
theorem streaming_cancellation_partial_result (reads : List String) (k : Nat) (st : StreamState)
    (h : runStream (reads.take k) = Except.ok st) :
    cancelledStreamingCall reads k = Except.ok (buildStreamResult st)
    ∧ (buildStreamResult st).markdown = concatAll st.emitted
    ∧ (buildStreamResult st).toolCalls
        = (if st.toolCallBuffer.length > 0 then some (finalizeToolCalls st.toolCallBuffer)
           else none) := by
  refine ⟨?_, ?_, rfl⟩
  · rw [cancelledStreamingCall, h]
    rfl
  · exact runStream_emitInv (reads.take k) st h

set_option maxRecDepth 100000 in
/-- Witness for C9: two SSE events arrive in the first read, the cancel flag
is observed before the second read, and the call completes with exactly the
two emitted chunks concatenated plus the finalized tool call. -/
theorem streaming_cancellation_partial_result_witness :
    cancelledStreamingCall
        [ "data: \x7b\"choices\":[\x7b\"delta\":\x7b\"content\":\"Hello \"\x7d\x7d]\x7d\n\ndata: \x7b\"choices\":[\x7b\"delta\":\x7b\"content\":\"world\",\"tool_calls\":[\x7b\"index\":0,\"id\":\"c1\",\"function\":\x7b\"name\":\"f\",\"arguments\":\"\x7b\x7d\"\x7d\x7d]\x7d\x7d]\x7d\n\n"
        , "data: \x7b\"choices\":[\x7b\"delta\":\x7b\"content\":\"IGNORED\"\x7d\x7d]\x7d\n\n" ] 1
      = Except.ok
          { markdown := "Hello world", rendered := "",
            toolCalls := some [{ name := some "f", arguments := Json.obj [] }] }
    ∧ ("Hello world" : String) = concatAll ["Hello ", "world"] := by
  refine ⟨?_, ?_⟩
  · exact (streaming_cancellation_partial_result
      [ "data: \x7b\"choices\":[\x7b\"delta\":\x7b\"content\":\"Hello \"\x7d\x7d]\x7d\n\ndata: \x7b\"choices\":[\x7b\"delta\":\x7b\"content\":\"world\",\"tool_calls\":[\x7b\"index\":0,\"id\":\"c1\",\"function\":\x7b\"name\":\"f\",\"arguments\":\"\x7b\x7d\"\x7d\x7d]\x7d\x7d]\x7d\n\n"
      , "data: \x7b\"choices\":[\x7b\"delta\":\x7b\"content\":\"IGNORED\"\x7d\x7d]\x7d\n\n" ] 1
      { buffer := "", markdown := "Hello world", emitted := ["Hello ", "world"],
        toolCallBuffer := [(0, { id := some "c1", name := some "f", arguments := "\x7b\x7d" })] }
      rfl).1
  · exact (streaming_cancellation_partial_result
      [ "data: \x7b\"choices\":[\x7b\"delta\":\x7b\"content\":\"Hello \"\x7d\x7d]\x7d\n\ndata: \x7b\"choices\":[\x7b\"delta\":\x7b\"content\":\"world\",\"tool_calls\":[\x7b\"index\":0,\"id\":\"c1\",\"function\":\x7b\"name\":\"f\",\"arguments\":\"\x7b\x7d\"\x7d\x7d]\x7d\x7d]\x7d\n\n"
      , "data: \x7b\"choices\":[\x7b\"delta\":\x7b\"content\":\"IGNORED\"\x7d\x7d]\x7d\n\n" ] 1
      { buffer := "", markdown := "Hello world", emitted := ["Hello ", "world"],
        toolCallBuffer := [(0, { id := some "c1", name := some "f", arguments := "\x7b\x7d" })] }
      rfl).2.1
